import Mathlib

/-!
Verification development for the proxy / interception engine of the
`jsonrpc-debugger` tool (Rust sources `src/app.rs`, `src/proxy.rs`).

The Rust code is shallowly embedded: `serde_json::Value` becomes the
inductive `Json` (numbers are modelled as `Int`; the claims under study
only use structural equality, never float arithmetic), `HashMap` becomes
an association list, `SystemTime` an opaque `Nat`, and a `oneshot`
decision channel is modelled by returning the list of `(entry, decision)`
pairs a controller operation dispatched.  Fallible operations return
`Except`/`Option`; a Rust panic is modelled as `Option.none`.
-/

namespace JsonRpcDbg

/-- Model of `serde_json::Value`.  Object fields keep insertion order;
`serde_json`'s map has unique keys, which lookup models with a
first-match scan. -/
inductive Json where
  | null : Json
  | bool (b : Bool) : Json
  | num (n : Int) : Json
  | str (s : String) : Json
  | arr (elems : List Json) : Json
  | obj (fields : List (String × Json)) : Json
  deriving Repr

mutual

/-- Structural equality on JSON values, modelling `PartialEq` of
`serde_json::Value` (numeric and string values are never equal, etc.). -/
def Json.beq : Json → Json → Bool
  | .null, .null => true
  | .bool a, .bool b => a == b
  | .num a, .num b => a == b
  | .str a, .str b => a == b
  | .arr as, .arr bs => Json.beqList as bs
  | .obj as, .obj bs => Json.beqFields as bs
  | _, _ => false

/-- Element-wise structural equality for JSON arrays. -/
def Json.beqList : List Json → List Json → Bool
  | [], [] => true
  | a :: as, b :: bs => Json.beq a b && Json.beqList as bs
  | _, _ => false

/-- Field-wise structural equality for JSON objects. -/
def Json.beqFields : List (String × Json) → List (String × Json) → Bool
  | [], [] => true
  | (k1, v1) :: as, (k2, v2) :: bs => k1 == k2 && Json.beq v1 v2 && Json.beqFields as bs
  | _, _ => false

end

/-- Equality of `Option<serde_json::Value>`, as used by the exchange
pairing check `e.id == message.id` in `App::add_message`. -/
def optValueBeq (a b : Option Json) : Bool :=
  match a, b with
  | none, none => true
  | some x, some y => Json.beq x y
  | _, _ => false

/-- Models `Value::get(key)` / `Value::get_mut(key)` lookup: a key lookup
succeeds only on objects. -/
def getKey (j : Json) (k : String) : Option Json :=
  match j with
  | .obj fields =>
    match fields.find? (fun kv => kv.1 == k) with
    | some kv => some kv.2
    | none => none
  | _ => none

/-- Replace the value of the first binding of key `k` (the binding
`Value::get_mut` finds) and leave everything else unchanged. -/
def setFirst : List (String × Json) → String → Json → List (String × Json)
  | [], _, _ => []
  | (k1, v1) :: rest, k, v =>
    if k1 == k then (k1, v) :: rest else (k1, v1) :: setFirst rest k v

/-- Models the in-place write `*data = Value::String(..)` performed through
`error.get_mut("data")`: on an object, overwrite the first `k` binding. -/
def setKey (j : Json) (k : String) (v : Json) : Json :=
  match j with
  | .obj fields => .obj (setFirst fields k v)
  | other => other

/-- Models `Value::as_str`. -/
def asStr : Json → Option String
  | .str s => some s
  | _ => none

/-- `MessageDirection` from `src/app.rs`. -/
inductive MessageDirection where
  | request : MessageDirection
  | response : MessageDirection
  deriving Repr, DecidableEq

/-- `TransportType` from `src/app.rs`. -/
inductive TransportType where
  | http : TransportType
  | webSocket : TransportType
  deriving Repr, DecidableEq

/-- `AppMode` from `src/app.rs`. -/
inductive AppMode where
  | normal : AppMode
  | paused : AppMode
  | intercepting : AppMode
  deriving Repr, DecidableEq

/-- `ProxyDecision` from `src/app.rs`; header maps are association lists. -/
inductive ProxyDecision where
  | allow (body : Option Json) (headers : Option (List (String × String))) : ProxyDecision
  | block : ProxyDecision
  | complete (response : Json) : ProxyDecision
  deriving Repr

/-- `JsonRpcMessage` from `src/app.rs`.  `timestamp` models `SystemTime`
opaquely; `headers` models `Option<HashMap<String, String>>`. -/
structure JsonRpcMessage where
  id : Option Json
  method : Option String
  params : Option Json
  result : Option Json
  error : Option Json
  timestamp : Nat
  direction : MessageDirection
  transport : TransportType
  headers : Option (List (String × String))
  deriving Repr

/-- `JsonRpcExchange` from `src/app.rs`. -/
structure JsonRpcExchange where
  id : Option Json
  method : Option String
  request : Option JsonRpcMessage
  response : Option JsonRpcMessage
  timestamp : Nat
  transport : TransportType
  deriving Repr

/-- `PendingRequest` from `src/app.rs`.  The `decision_sender` oneshot
channel is modelled by the dispatched-decision lists the controller
operations return. -/
structure PendingRequest where
  id : String
  original_request : JsonRpcMessage
  modified_request : Option String
  modified_headers : Option (List (String × String))
  deriving Repr

/-- The engine-relevant fields of `App` from `src/app.rs`.  Pure UI fields
(table state, scroll offsets, input buffers, proxy config, channels) do
not participate in any claim and are omitted. -/
structure App where
  exchanges : List JsonRpcExchange
  app_mode : AppMode
  pending_requests : List PendingRequest
  selected_pending : Nat
  deriving Repr

/-! ## Sanitization (`App::add_message`, src/app.rs lines 172-185) -/

/-- Rust `char::is_ascii`: code point at most `0x7F`. -/
def char_is_ascii (c : Char) : Bool :=
  c.val ≤ 0x7F

/-- Rust `char::is_control`: Unicode general category `Cc`,
i.e. `U+0000`–`U+001F` and `U+007F`–`U+009F`. -/
def char_is_control (c : Char) : Bool :=
  c.val ≤ 0x1F || (0x7F ≤ c.val && c.val ≤ 0x9F)

/-- The per-character predicate of the sanitizing `filter` in
`App::add_message`. -/
def keep_sanitized_char (c : Char) : Bool :=
  char_is_ascii c && (!(char_is_control c) || c == '\n' || c == '\t')

/-- `data_str.chars().filter(..).take(500).collect::<String>()`. -/
def sanitize_data_string (s : String) : String :=
  String.mk ((s.data.filter keep_sanitized_char).take 500)

/-- The sanitization pass at the top of `App::add_message`: when the
message has an `error` whose `data` field is a JSON string, replace that
string; otherwise leave the message untouched. -/
def sanitize_message (m : JsonRpcMessage) : JsonRpcMessage :=
  match m.error with
  | some err =>
    match getKey err "data" with
    | some (.str s) =>
      { m with error := some (setKey err "data" (.str (sanitize_data_string s))) }
    | _ => m
  | none => m

/-! ## Exchange store (`App::add_message`, src/app.rs lines 187-223) -/

/-- The exchange pushed for a `Request` message. -/
def mk_request_exchange (m : JsonRpcMessage) : JsonRpcExchange :=
  { id := m.id
  , method := m.method
  , request := some m
  , response := none
  , timestamp := m.timestamp
  , transport := m.transport }

/-- The response-only exchange pushed when no unfulfilled exchange
matches a `Response` message. -/
def mk_response_only_exchange (m : JsonRpcMessage) : JsonRpcExchange :=
  { id := m.id
  , method := none
  , request := none
  , response := some m
  , timestamp := m.timestamp
  , transport := m.transport }

/-- The predicate of the source search
`e.id == message.id && e.response.is_none()`. -/
def unfulfilled_match (e : JsonRpcExchange) (m : JsonRpcMessage) : Bool :=
  optValueBeq e.id m.id && e.response.isNone

/-- Models `self.exchanges.iter_mut().rev().find(..)` followed by the
response write: fill the response slot of the *last* unfulfilled exchange
whose id is structurally equal; `none` when no exchange matches. -/
def pair_from_back (es : List JsonRpcExchange) (m : JsonRpcMessage) :
    Option (List JsonRpcExchange) :=
  match es with
  | [] => none
  | e :: rest =>
    match pair_from_back rest m with
    | some rest2 => some (e :: rest2)
    | none =>
      if unfulfilled_match e m then some ({ e with response := some m } :: rest)
      else none

/-- The direction dispatch of `App::add_message` applied to an
already-sanitized message. -/
def add_sanitized (es : List JsonRpcExchange) (m : JsonRpcMessage) :
    List JsonRpcExchange :=
  match m.direction with
  | .request => es ++ [mk_request_exchange m]
  | .response =>
    match pair_from_back es m with
    | some es2 => es2
    | none => es ++ [mk_response_only_exchange m]

/-- `App::add_message` restricted to its effect on `self.exchanges`:
sanitize the incoming message, then append or pair it. -/
def add_message (es : List JsonRpcExchange) (m : JsonRpcMessage) :
    List JsonRpcExchange :=
  add_sanitized es (sanitize_message m)

/-! ## Controller decision dispatch (`src/app.rs` lines 497-540, 662-703) -/

/-- Whether an `Except` result is the error case (Rust `Result::is_err`). -/
def isErr : Except String Unit → Bool
  | .error _ => true
  | .ok _ => false

/-- The validity condition `complete_selected_request` enforces on a
supplied response: `jsonrpc == "2.0"`, an `id` present, and exactly one
of `result` / `error` present. -/
def jsonrpc_response_valid (parsed : Json) : Bool :=
  optValueBeq (getKey parsed "jsonrpc") (some (.str "2.0")) &&
  (getKey parsed "id").isSome &&
  ((getKey parsed "result").isSome != (getKey parsed "error").isSome)

/-- `App::allow_selected_request`.  `parse` stands for
`serde_json::from_str`; the returned list holds the decisions sent on the
removed entries' oneshot channels. -/
def allow_selected_request (parse : String → Option Json) (app : App) :
    App × List (PendingRequest × ProxyDecision) :=
  if h : app.selected_pending < app.pending_requests.length then
    let pending := app.pending_requests.get ⟨app.selected_pending, h⟩
    let rest := app.pending_requests.eraseIdx app.selected_pending
    let sel :=
      if app.selected_pending > 0 ∧ app.selected_pending ≥ rest.length then
        app.selected_pending - 1
      else app.selected_pending
    let decision :=
      match pending.modified_request with
      | some modified_json =>
        match parse modified_json with
        | some parsed => ProxyDecision.allow (some parsed) pending.modified_headers
        | none => ProxyDecision.allow none pending.modified_headers
      | none => ProxyDecision.allow none pending.modified_headers
    ({ app with pending_requests := rest, selected_pending := sel }, [(pending, decision)])
  else (app, [])

/-- `App::block_selected_request`. -/
def block_selected_request (app : App) :
    App × List (PendingRequest × ProxyDecision) :=
  if h : app.selected_pending < app.pending_requests.length then
    let pending := app.pending_requests.get ⟨app.selected_pending, h⟩
    let rest := app.pending_requests.eraseIdx app.selected_pending
    let sel :=
      if app.selected_pending > 0 ∧ app.selected_pending ≥ rest.length then
        app.selected_pending - 1
      else app.selected_pending
    ({ app with pending_requests := rest, selected_pending := sel },
      [(pending, ProxyDecision.block)])
  else (app, [])

/-- `App::complete_selected_request`.  The source's validation error
strings carry quoted field names; the messages here keep their wording
without the quotes.  The result triple is (returned `Result`, new app
state, dispatched decisions). -/
def complete_selected_request (parse : String → Option Json) (app : App)
    (response_json : String) :
    Except String Unit × App × List (PendingRequest × ProxyDecision) :=
  if h : app.selected_pending < app.pending_requests.length then
    match parse response_json with
    | none => (.error "Invalid JSON", app, [])
    | some parsed =>
      if !(optValueBeq (getKey parsed "jsonrpc") (some (.str "2.0"))) then
        (.error "Missing or invalid jsonrpc field", app, [])
      else if (getKey parsed "id").isNone then
        (.error "Missing id field", app, [])
      else if !(getKey parsed "result").isSome && !(getKey parsed "error").isSome then
        (.error "Response must have either result or error field", app, [])
      else if (getKey parsed "result").isSome && (getKey parsed "error").isSome then
        (.error "Response cannot have both result and error fields", app, [])
      else
        let pending := app.pending_requests.get ⟨app.selected_pending, h⟩
        let rest := app.pending_requests.eraseIdx app.selected_pending
        let sel :=
          if app.selected_pending > 0 ∧ app.selected_pending ≥ rest.length then
            app.selected_pending - 1
          else app.selected_pending
        (.ok (), { app with pending_requests := rest, selected_pending := sel },
          [(pending, ProxyDecision.complete parsed)])
  else (.error "No pending request selected", app, [])

/-- The drain loop of `App::resume_all_requests`: each drained entry is
sent `Allow(None, None)` in order. -/
def drain_pending : List PendingRequest → List (PendingRequest × ProxyDecision)
  | [] => []
  | p :: rest => (p, ProxyDecision.allow none none) :: drain_pending rest

/-- `App::resume_all_requests`. -/
def resume_all_requests (app : App) : App × List (PendingRequest × ProxyDecision) :=
  ({ app with pending_requests := [], selected_pending := 0, app_mode := AppMode.normal },
    drain_pending app.pending_requests)

/-! ## Request handler ingress (`handle_proxy_request`, src/proxy.rs lines 95-158) -/

/-- What the handler does with an incoming request after logging it. -/
inductive HandlerAction where
  | intercept : HandlerAction
  | forwardRequest : HandlerAction
  deriving Repr, DecidableEq

/-- The request record `handle_proxy_request` builds from the incoming
body and headers (src/proxy.rs lines 112-125). -/
def message_from_body (headers : List (String × String)) (body : Json) (now : Nat) :
    JsonRpcMessage :=
  { id := getKey body "id"
  , method := (getKey body "method").bind asStr
  , params := getKey body "params"
  , result := none
  , error := none
  , timestamp := now
  , direction := .request
  , transport := .http
  , headers := some headers }

/-- The mode probe of `handle_proxy_request` (src/proxy.rs lines 130-137):
`observed` is the app mode read under the lock when a proxy state is
present; `none` models an absent proxy state or a poisoned lock, both of
which the source treats as no interception.  Interception requires
`matches!(*app_mode, AppMode::Paused)`. -/
def should_intercept (observed : Option AppMode) : Bool :=
  match observed with
  | some mode => mode == AppMode.paused
  | none => false

/-- Ingress of `handle_proxy_request`: log the request record, then either
intercept (enqueue a `PendingRequest` and await its decision) or forward. -/
def handle_proxy_request_ingress (headers : List (String × String)) (body : Json)
    (now : Nat) (observed : Option AppMode) : JsonRpcMessage × HandlerAction :=
  (message_from_body headers body now,
    if should_intercept observed then HandlerAction.intercept
    else HandlerAction.forwardRequest)

/-! ## Upstream forwarder, non-JSON branch (`forward_request`,
src/proxy.rs lines 309-396).  Rust `String`s holding upstream text are
modelled as lists of Unicode scalar values so that the byte-level
operations (`len()`, byte slicing, `bytes()`) are exact. -/

/-- UTF-8 encoded width in bytes of one scalar value. -/
def utf8Width (c : Nat) : Nat :=
  if c < 0x80 then 1 else if c < 0x800 then 2 else if c < 0x10000 then 3 else 4

/-- Rust `String::len`: the UTF-8 byte length. -/
def byteLength (s : List Nat) : Nat := (s.map utf8Width).sum

/-- UTF-8 encoding of one scalar value. -/
def utf8Encode (c : Nat) : List Nat :=
  if c < 0x80 then [c]
  else if c < 0x800 then [0xC0 + c / 0x40, 0x80 + c % 0x40]
  else if c < 0x10000 then [0xE0 + c / 0x1000, 0x80 + c / 0x40 % 0x40, 0x80 + c % 0x40]
  else [0xF0 + c / 0x40000, 0x80 + c / 0x1000 % 0x40, 0x80 + c / 0x40 % 0x40, 0x80 + c % 0x40]

/-- Rust byte-slicing `&s[..n]`: `some` prefix when byte index `n` is a
char boundary inside the string, `none` when the slice panics (index out
of bounds or not on a char boundary). -/
def slice_to : List Nat → Nat → Option (List Nat)
  | _, 0 => some []
  | [], _ + 1 => none
  | c :: rest, n + 1 =>
    if utf8Width c ≤ n + 1 then (slice_to rest (n + 1 - utf8Width c)).map (fun t => c :: t)
    else none

/-- Rust `char::is_whitespace` (Unicode `White_Space`) on a scalar value. -/
def scalar_is_whitespace (c : Nat) : Bool :=
  c == 0x09 || c == 0x0A || c == 0x0B || c == 0x0C || c == 0x0D || c == 0x20 ||
  c == 0x85 || c == 0xA0 || c == 0x1680 ||
  (decide (0x2000 ≤ c) && decide (c ≤ 0x200A)) ||
  c == 0x2028 || c == 0x2029 || c == 0x202F || c == 0x205F || c == 0x3000

/-- Rust `str::trim`. -/
def trimScalars (s : List Nat) : List Nat :=
  ((s.dropWhile scalar_is_whitespace).reverse.dropWhile scalar_is_whitespace).reverse

/-- Whether the first character of the (already trimmed) text is `c`. -/
def headScalarIs (s : List Nat) (c : Nat) : Bool :=
  match s with
  | [] => false
  | x :: _ => x == c

/-- A Lean string literal viewed as scalar values. -/
def strToScalars (s : String) : List Nat := s.data.map (fun c => c.toNat)

/-- Scalar values packed back into a Lean string (used to store computed
previews inside `Json.str`). -/
def scalarsToStr (s : List Nat) : String := String.mk (s.map Char.ofNat)

/-- One hex digit, lowercase. -/
def hexDigitChar (n : Nat) : Char :=
  if n < 10 then Char.ofNat (48 + n) else Char.ofNat (87 + n)

/-- One byte under the `02x` format. -/
def hexByte (b : Nat) : String :=
  String.mk [hexDigitChar (b / 16 % 16), hexDigitChar (b % 16)]

/-- Rust `format!("{:02x?}", bytes)` on a `Vec<u8>`. -/
def hexVec (bs : List Nat) : String :=
  "[" ++ String.intercalate ", " (bs.map hexByte) ++ "]"

/-- The "safe preview" construction of `forward_request` (src/proxy.rs
lines 320-338): hex of the first 50 bytes for binary data, up to 500
bytes for JSON-shaped text, else up to 200 bytes.  `none` models the
panic of the byte slice `&response_text[..500]` / `[..200]` when the
byte index is not a char boundary. -/
def content_preview (response_text : List Nat) : Option (List Nat) :=
  if response_text.contains 0 then
    some (strToScalars
      ("Binary data: " ++ hexVec (((response_text.map utf8Encode).flatten).take 50) ++ "..."))
  else if headScalarIs (trimScalars response_text) 0x7B ||
      headScalarIs (trimScalars response_text) 0x5B then
    if byteLength response_text > 500 then
      (slice_to response_text 500).map (fun t => t ++ strToScalars "...")
    else some response_text
  else if byteLength response_text > 200 then
    (slice_to response_text 200).map (fun t => t ++ strToScalars "...")
  else some response_text

/-- First-match lookup in a header map (`HashMap::get` with the key
already lowercased by the HTTP layer). -/
def lookupHeader (hs : List (String × String)) (k : String) : Option String :=
  (hs.find? (fun kv => kv.1 == k)).map (fun kv => kv.2)

/-- Whether `pat` occurs at the head of `s`. -/
def leadEq : List Char → List Char → Bool
  | [], _ => true
  | _ :: _, [] => false
  | p :: ps, c :: cs => p == c && leadEq ps cs

/-- Whether `pat` occurs anywhere in `s`. -/
def hasSub (pat : List Char) : List Char → Bool
  | [] => leadEq pat []
  | c :: rest => leadEq pat (c :: rest) || hasSub pat rest

/-- Rust `str::contains` with a string pattern. -/
def str_contains (s pat : String) : Bool := hasSub pat.data s.data

/-- The `issue_type` classification of a non-JSON upstream body
(src/proxy.rs lines 341-351). -/
def issue_type_of (is_empty has_null_bytes : Bool) (content_type : String) : String :=
  if is_empty then "empty_response"
  else if has_null_bytes then "binary_data"
  else if str_contains content_type "text/html" then "html_response"
  else if str_contains content_type "application/json" then "malformed_json"
  else "unknown_format"

/-- The non-JSON upstream-body branch of `forward_request` (src/proxy.rs
lines 309-396): classify the body, log an error message carrying the full
diagnostic `data`, and reply HTTP 200 with a reduced JSON-RPC error
envelope.  `status_text` is the `Display` rendering of the upstream
status (e.g. "200 OK") used inside the message string;
`parse_error_text` is the `Display` rendering of the serde parse error.
`none` models the panic of the preview slice, which aborts the branch
before anything is logged or replied. -/
def invalid_json_branch (body : Json) (status_text : String)
    (response_text : List Nat) (response_headers : List (String × String))
    (parse_error_text target_url : String) (now : Nat) :
    Option (JsonRpcMessage × Json × Nat) :=
  let content_type := (lookupHeader response_headers "content-type").getD "unknown"
  let has_null_bytes := response_text.contains 0
  let is_empty := (trimScalars response_text).isEmpty
  match content_preview response_text with
  | none => none
  | some preview =>
    let issue := issue_type_of is_empty has_null_bytes content_type
    let msg := "Invalid JSON response from server (HTTP " ++ status_text ++ ")"
    let logged : JsonRpcMessage :=
      { id := getKey body "id"
      , method := none
      , params := none
      , result := none
      , error := some (Json.obj
          [ ("code", .num (-32700))
          , ("message", .str msg)
          , ("data", Json.obj
              [ ("issue_type", .str issue)
              , ("content_type", .str content_type)
              , ("response_preview", .str (scalarsToStr preview))
              , ("response_length", .num (byteLength response_text))
              , ("has_null_bytes", .bool has_null_bytes)
              , ("parse_error", .str parse_error_text)
              , ("target_url", .str target_url) ]) ])
      , timestamp := now
      , direction := .response
      , transport := .http
      , headers := some response_headers }
    let reply := Json.obj
      [ ("jsonrpc", .str "2.0")
      , ("id", (getKey body "id").getD .null)
      , ("error", Json.obj
          [ ("code", .num (-32700))
          , ("message", .str msg)
          , ("data", Json.obj
              [ ("issue_type", .str issue)
              , ("content_type", .str content_type)
              , ("has_null_bytes", .bool has_null_bytes) ]) ]) ]
    some (logged, reply, 200)

/-! ## Concrete inputs used by the witnesses and counterexamples -/

/-- A plain captured request used as payload of demo pending entries. -/
def demo_request_message : JsonRpcMessage :=
  { id := some (.num 1), method := some "eth_blockNumber", params := none
  , result := none, error := none, timestamp := 0
  , direction := .request, transport := .http, headers := none }

/-- A pending entry without an operator edit. -/
def demo_pending_a : PendingRequest :=
  { id := "a", original_request := demo_request_message
  , modified_request := none, modified_headers := none }

/-- A pending entry whose edited body does not parse. -/
def demo_pending_b : PendingRequest :=
  { id := "b", original_request := demo_request_message
  , modified_request := some "garbage", modified_headers := some [("x-test", "1")] }

/-- A controller state with two pending entries and the second selected. -/
def demo_app : App :=
  { exchanges := [], app_mode := .paused
  , pending_requests := [demo_pending_a, demo_pending_b], selected_pending := 1 }

/-- A well-formed JSON-RPC response value. -/
def demo_response_json : Json :=
  Json.obj [("jsonrpc", .str "2.0"), ("id", .num 1), ("result", .str "x")]

/-- A concrete stand-in for `serde_json::from_str`: parses the single
source text "ok" to `demo_response_json` and fails on everything else. -/
def demo_parse (s : String) : Option Json :=
  if s == "ok" then some demo_response_json else none

/-- A request message, for the C1 witness. -/
def c1_request_msg : JsonRpcMessage :=
  { id := some (.num 1), method := some "ping", params := none, result := none
  , error := none, timestamp := 5, direction := .request, transport := .http
  , headers := none }

/-- Raw `error.data` payload: a control byte and a non-ASCII letter that
sanitization must strip. -/
def c2_raw : String := "boom\x01é\nok"

/-- Error object carrying the raw data string. -/
def c2_err : Json := Json.obj [("code", .num (-32000)), ("data", .str c2_raw)]

/-- A response message whose error data needs sanitizing. -/
def c2_msg : JsonRpcMessage :=
  { id := some (.num 2), method := none, params := none, result := none
  , error := some c2_err, timestamp := 0, direction := .response
  , transport := .http, headers := none }

/-- The request body used in the C3 scenario. -/
def c3_body : Json :=
  Json.obj [("jsonrpc", .str "2.0"), ("method", .str "ping"), ("id", .num 7)]

/-- A plain-text upstream body that is not JSON. -/
def c3_text : List Nat := strToScalars "hello world"

/-- Upstream response headers for the C3 scenario. -/
def c3_headers : List (String × String) := [("content-type", "text/plain")]

/-- The non-JSON branch outcome on the C3 scenario. -/
def c3_outcome : Option (JsonRpcMessage × Json × Nat) :=
  invalid_json_branch c3_body "200 OK" c3_text c3_headers
    "expected value at line 1 column 1" "http://localhost:9999" 0

/-- The `data` field of the `error` object of the reply of an outcome. -/
def reply_error_data (o : Option (JsonRpcMessage × Json × Nat)) : Option Json :=
  o.bind (fun t => (getKey t.2.1 "error").bind (fun e => getKey e "data"))

/-- The message the C3 scenario logs to the store. -/
def c3_logged : JsonRpcMessage :=
  { id := some (.num 7), method := none, params := none, result := none
  , error := some (Json.obj
      [ ("code", .num (-32700))
      , ("message", .str "Invalid JSON response from server (HTTP 200 OK)")
      , ("data", Json.obj
          [ ("issue_type", .str "unknown_format")
          , ("content_type", .str "text/plain")
          , ("response_preview", .str "hello world")
          , ("response_length", .num 11)
          , ("has_null_bytes", .bool false)
          , ("parse_error", .str "expected value at line 1 column 1")
          , ("target_url", .str "http://localhost:9999") ]) ])
  , timestamp := 0, direction := .response, transport := .http
  , headers := some [("content-type", "text/plain")] }

/-- The client reply the C3 scenario produces. -/
def c3_reply : Json := Json.obj
  [ ("jsonrpc", .str "2.0")
  , ("id", .num 7)
  , ("error", Json.obj
      [ ("code", .num (-32700))
      , ("message", .str "Invalid JSON response from server (HTTP 200 OK)")
      , ("data", Json.obj
          [ ("issue_type", .str "unknown_format")
          , ("content_type", .str "text/plain")
          , ("has_null_bytes", .bool false) ]) ]) ]

/-- Upstream text of 501 bytes whose byte index 500 falls inside the
UTF-8 encoding of `é`: a `"{"` followed by 250 copies of scalar `0xE9`. -/
def c4_text : List Nat := 0x7B :: List.replicate 250 0xE9

/-- A response message carrying a method, for the C10 witness. -/
def c10_msg : JsonRpcMessage :=
  { id := some (.num 9), method := some "mm", params := none, result := none
  , error := none, timestamp := 3, direction := .response, transport := .http
  , headers := none }

/-- An exchange whose id differs from `c10_msg`, so pairing fails. -/
def c10_other : JsonRpcExchange :=
  { id := some (.num 8), method := some "other", request := some demo_request_message
  , response := none, timestamp := 1, transport := .http }

/-! ### Pairing lemmas -/

/-- Complete case analysis of `pair_from_back`: either no exchange is an
unfulfilled id match and the search fails, or the store splits around the
last matching exchange, which absorbs the response. -/
theorem pair_from_back_spec (m : JsonRpcMessage) :
    ∀ es : List JsonRpcExchange,
      (pair_from_back es m = none ∧ ∀ e ∈ es, unfulfilled_match e m = false) ∨
      (∃ pre e suf, es = pre ++ e :: suf ∧ unfulfilled_match e m = true ∧
        (∀ x ∈ suf, unfulfilled_match x m = false) ∧
        pair_from_back es m = some (pre ++ { e with response := some m } :: suf)) := by
  intro es
  induction es with
  | nil => exact Or.inl ⟨rfl, by simp⟩
  | cons e rest ih =>
    rcases ih with ⟨hnone, hall⟩ | ⟨pre, x, suf, heq, hx, hsuf, hsome⟩
    · by_cases hm : unfulfilled_match e m = true
      · refine Or.inr ⟨[], e, rest, rfl, hm, hall, ?_⟩
        simp [pair_from_back, hnone, hm]
      · refine Or.inl ⟨?_, ?_⟩
        · simp [pair_from_back, hnone, hm]
        · intro x hxmem
          rcases List.mem_cons.mp hxmem with h | h
          · subst h; exact Bool.eq_false_iff.mpr hm
          · exact hall x h
    · refine Or.inr ⟨e :: pre, x, suf, by simp [heq], hx, hsuf, ?_⟩
      simp [pair_from_back, hsome]

/-- Sanitization touches only the `error` field of a message: every other
field of the record is preserved verbatim. -/
theorem sanitize_message_preserves_fields (m : JsonRpcMessage) :
    (sanitize_message m).id = m.id ∧
    (sanitize_message m).method = m.method ∧
    (sanitize_message m).params = m.params ∧
    (sanitize_message m).result = m.result ∧
    (sanitize_message m).timestamp = m.timestamp ∧
    (sanitize_message m).direction = m.direction ∧
    (sanitize_message m).transport = m.transport ∧
    (sanitize_message m).headers = m.headers := by
  cases herr : m.error with
  | none => simp [sanitize_message, herr]
  | some err =>
    cases hd : getKey err "data" with
    | none => simp [sanitize_message, herr, hd]
    | some v => cases v <;> simp [sanitize_message, herr, hd]

/-- Characters surviving the sanitizing filter are ASCII and are not
control characters other than newline and tab. -/
theorem keep_char_props (c : Char) (h : keep_sanitized_char c = true) :
    char_is_ascii c = true ∧ (char_is_control c = true → c = '\n' ∨ c = '\t') := by
  unfold keep_sanitized_char at h
  rw [Bool.and_eq_true] at h
  refine ⟨h.1, fun hc => ?_⟩
  have h2 := h.2
  rw [Bool.or_eq_true, Bool.or_eq_true] at h2
  rcases h2 with (h2 | h2) | h2
  · rw [hc] at h2; simp at h2
  · exact Or.inl (by exact beq_iff_eq.mp h2)
  · exact Or.inr (by exact beq_iff_eq.mp h2)

/-- Writing key `k` leaves the first binding of any other key `k2`
unchanged (association-list level). -/
theorem find_setFirst_ne (k k2 : String) (v : Json) (h : ¬ k2 = k) :
    ∀ fields, List.find? (fun kv => kv.1 == k2) (setFirst fields k v) =
      List.find? (fun kv => kv.1 == k2) fields := by
  intro fields
  induction fields with
  | nil => rfl
  | cons kv rest ih =>
    obtain ⟨k1, v1⟩ := kv
    by_cases hk : k1 = k
    · subst hk
      have hne : (k1 == k2) = false := by
        rw [beq_eq_false_iff_ne]
        exact fun hh => h hh.symm
      simp [setFirst, List.find?, hne]
    · have hkb : (k1 == k) = false := by rw [beq_eq_false_iff_ne]; exact hk
      by_cases hk2 : (k1 == k2) = true
      · simp [setFirst, hkb, List.find?, hk2]
      · rw [Bool.not_eq_true] at hk2
        simp [setFirst, hkb, List.find?, hk2, ih]

/-- `setKey` mutates only the `k` binding: lookups of any other key are
unchanged. -/
theorem getKey_setKey_ne (err : Json) (k k2 : String) (v : Json) (h : ¬ k2 = k) :
    getKey (setKey err k v) k2 = getKey err k2 := by
  cases err <;> simp [getKey, setKey]
  rw [find_setFirst_ne k k2 v h]

/-! ## Claim theorems -/

/-- C1: a Response entering `add_message` is paired with the most
recently appended exchange whose id is structurally equal and whose
response slot is still empty (LIFO among unfulfilled exchanges of that
id); if none exists a response-only exchange is appended; and a Request
always appends a new exchange regardless of earlier ids. -/
theorem add_message_pairing_lifo (es : List JsonRpcExchange) (m : JsonRpcMessage) :
    (sanitize_message m).id = m.id ∧
    (m.direction = MessageDirection.request →
      add_message es m = es ++ [mk_request_exchange (sanitize_message m)]) ∧
    (m.direction = MessageDirection.response →
      (∃ pre e suf, es = pre ++ e :: suf ∧
          unfulfilled_match e (sanitize_message m) = true ∧
          (∀ x ∈ suf, unfulfilled_match x (sanitize_message m) = false) ∧
          add_message es m =
            pre ++ { e with response := some (sanitize_message m) } :: suf) ∨
      ((∀ e ∈ es, unfulfilled_match e (sanitize_message m) = false) ∧
        add_message es m = es ++ [mk_response_only_exchange (sanitize_message m)])) := by
  have hfields := sanitize_message_preserves_fields m
  have hdirp := hfields.2.2.2.2.2.1
  refine ⟨hfields.1, ?_, ?_⟩
  · intro hdir
    have hd2 : (sanitize_message m).direction = MessageDirection.request := by
      rw [hdirp, hdir]
    simp [add_message, add_sanitized, hd2]
  · intro hdir
    have hd2 : (sanitize_message m).direction = MessageDirection.response := by
      rw [hdirp, hdir]
    rcases pair_from_back_spec (sanitize_message m) es with ⟨hnone, hall⟩ |
      ⟨pre, e, suf, heq, he, hsuf, hsome⟩
    · exact Or.inr ⟨hall, by simp [add_message, add_sanitized, hd2, hnone]⟩
    · exact Or.inl ⟨pre, e, suf, heq, he, hsuf,
        by simp [add_message, add_sanitized, hd2, hsome]⟩

/-- Witness for C1: a concrete Request appends a fresh exchange. -/
theorem add_message_pairing_lifo_witness :
    add_message [] c1_request_msg =
      [mk_request_exchange (sanitize_message c1_request_msg)] :=
  (add_message_pairing_lifo [] c1_request_msg).2.1 rfl

/-- C2: when a message's `error.data` is a JSON string, the value stored
by `add_message` contains only ASCII characters, no control characters
except newline and tab, and at most 500 characters; and sanitization
mutates nothing else — not the other keys of `error`, not any other
message field. -/
theorem add_message_sanitizes_error_data (m : JsonRpcMessage) (err : Json) (s : String)
    (herr : m.error = some err) (hdata : getKey err "data" = some (.str s)) :
    (∀ c ∈ (sanitize_data_string s).data,
        char_is_ascii c = true ∧ (char_is_control c = true → c = '\n' ∨ c = '\t')) ∧
    (sanitize_data_string s).length ≤ 500 ∧
    (sanitize_message m).error =
      some (setKey err "data" (.str (sanitize_data_string s))) ∧
    (∀ k, ¬ k = "data" →
      getKey (setKey err "data" (.str (sanitize_data_string s))) k = getKey err k) ∧
    (sanitize_message m).id = m.id ∧
    (sanitize_message m).method = m.method ∧
    (sanitize_message m).params = m.params ∧
    (sanitize_message m).result = m.result ∧
    (sanitize_message m).timestamp = m.timestamp ∧
    (sanitize_message m).direction = m.direction ∧
    (sanitize_message m).transport = m.transport ∧
    (sanitize_message m).headers = m.headers ∧
    (∀ es, add_message es m = add_sanitized es (sanitize_message m)) := by
  have hfields := sanitize_message_preserves_fields m
  refine ⟨?_, ?_, ?_, ?_, hfields.1, hfields.2.1, hfields.2.2.1, hfields.2.2.2.1,
    hfields.2.2.2.2.1, hfields.2.2.2.2.2.1, hfields.2.2.2.2.2.2.1,
    hfields.2.2.2.2.2.2.2, fun es => rfl⟩
  · intro c hc
    have hdl : (sanitize_data_string s).data =
        (s.data.filter keep_sanitized_char).take 500 := rfl
    rw [hdl] at hc
    have hmem : c ∈ s.data.filter keep_sanitized_char := List.mem_of_mem_take hc
    exact keep_char_props c (List.mem_filter.mp hmem).2
  · have hdl : (sanitize_data_string s).length =
        ((s.data.filter keep_sanitized_char).take 500).length := rfl
    rw [hdl]
    exact List.length_take_le 500 _
  · simp [sanitize_message, herr, hdata]
  · intro k hk
    exact getKey_setKey_ne err "data" k _ hk

/-- Witness for C2: a control byte and a non-ASCII letter are stripped
from a concrete `error.data`. -/
theorem add_message_sanitizes_error_data_witness :
    c2_msg.error = some c2_err ∧
    (sanitize_message c2_msg).error =
      some (setKey c2_err "data" (.str (sanitize_data_string c2_raw))) ∧
    sanitize_data_string c2_raw = "boom\nok" := by
  refine ⟨rfl, (add_message_sanitizes_error_data c2_msg c2_err c2_raw rfl rfl).2.2.1, ?_⟩
  rfl

/-- C10: a Response matching no unfulfilled exchange is appended as a
response-only exchange whose `method` and `request` are `none` — whatever
method the message carries — with id, timestamp and transport copied
from the message. -/
theorem add_message_response_only_shape (es : List JsonRpcExchange) (m : JsonRpcMessage)
    (hdir : m.direction = MessageDirection.response)
    (hnom : ∀ e ∈ es, unfulfilled_match e (sanitize_message m) = false) :
    add_message es m = es ++ [mk_response_only_exchange (sanitize_message m)] ∧
    (mk_response_only_exchange (sanitize_message m)).method = none ∧
    (mk_response_only_exchange (sanitize_message m)).request = none ∧
    (mk_response_only_exchange (sanitize_message m)).id = m.id ∧
    (mk_response_only_exchange (sanitize_message m)).timestamp = m.timestamp ∧
    (mk_response_only_exchange (sanitize_message m)).transport = m.transport := by
  have hfields := sanitize_message_preserves_fields m
  have hd2 : (sanitize_message m).direction = MessageDirection.response := by
    rw [hfields.2.2.2.2.2.1, hdir]
  have hnone : pair_from_back es (sanitize_message m) = none := by
    rcases pair_from_back_spec (sanitize_message m) es with ⟨hnone, _⟩ |
      ⟨pre, e, suf, heq, he, _, _⟩
    · exact hnone
    · exfalso
      have hmem : e ∈ es := by
        rw [heq]
        exact List.mem_append.mpr (Or.inr (List.mem_cons_self e suf))
      rw [hnom e hmem] at he
      exact Bool.false_ne_true he
  refine ⟨by simp [add_message, add_sanitized, hd2, hnone], rfl, rfl, ?_, ?_, ?_⟩
  · exact hfields.1
  · exact hfields.2.2.2.2.1
  · exact hfields.2.2.2.2.2.2.1

/-- Witness for C10: a response that itself carries a method still yields
a method-less, request-less appended exchange. -/
theorem add_message_response_only_shape_witness :
    c10_msg.method = some "mm" ∧
    add_message [c10_other] c10_msg =
      [c10_other, mk_response_only_exchange (sanitize_message c10_msg)] ∧
    (mk_response_only_exchange (sanitize_message c10_msg)).method = none := by
  have hnom : ∀ e ∈ [c10_other], unfulfilled_match e (sanitize_message c10_msg) = false := by
    intro e he
    rw [List.mem_singleton] at he
    subst he
    rfl
  have h := add_message_response_only_shape [c10_other] c10_msg rfl hnom
  exact ⟨rfl, h.1, h.2.1⟩

/-- C7: with a pending entry selected, `allow_selected_request` always
dispatches exactly one decision on that entry's channel:
`Allow(Some(parsed), modified_headers)` when the stored modified body
parses, `Allow(None, modified_headers)` when there is no modified body or
it fails to parse. -/
theorem allow_selected_request_always_dispatches (parse : String → Option Json)
    (app : App) (h : app.selected_pending < app.pending_requests.length) :
    (allow_selected_request parse app).2 =
      [(app.pending_requests.get ⟨app.selected_pending, h⟩,
        ProxyDecision.allow
          ((app.pending_requests.get ⟨app.selected_pending, h⟩).modified_request.bind parse)
          (app.pending_requests.get ⟨app.selected_pending, h⟩).modified_headers)] := by
  unfold allow_selected_request
  rw [dif_pos h]
  generalize app.pending_requests.get ⟨app.selected_pending, h⟩ = p
  cases hmr : p.modified_request with
  | none => simp [hmr]
  | some mj =>
    cases hp : parse mj with
    | none => simp [hmr, hp]
    | some parsed => simp [hmr, hp]

/-- Witness for C7: an unparseable edited body still yields a dispatched
`Allow(None, modified_headers)`. -/
theorem allow_selected_request_always_dispatches_witness :
    (allow_selected_request demo_parse demo_app).2 =
      [(demo_pending_b, ProxyDecision.allow none (some [("x-test", "1")]))] := by
  have h := allow_selected_request_always_dispatches demo_parse demo_app (by decide)
  rw [h]
  rfl

/-- C6: with a pending entry selected, `complete_selected_request`
returns an error and leaves the whole controller state (in particular the
pending queue) unchanged, dispatching nothing, whenever the supplied
response fails to parse or fails validation; on a valid response it
removes the entry and dispatches `Complete(parsed)` on its channel. -/
theorem complete_selected_request_validates (parse : String → Option Json)
    (app : App) (rj : String)
    (h : app.selected_pending < app.pending_requests.length) :
    (parse rj = none →
      isErr (complete_selected_request parse app rj).1 = true ∧
      (complete_selected_request parse app rj).2.1 = app ∧
      (complete_selected_request parse app rj).2.2 = []) ∧
    (∀ parsed, parse rj = some parsed →
      (jsonrpc_response_valid parsed = false →
        isErr (complete_selected_request parse app rj).1 = true ∧
        (complete_selected_request parse app rj).2.1 = app ∧
        (complete_selected_request parse app rj).2.2 = []) ∧
      (jsonrpc_response_valid parsed = true →
        (complete_selected_request parse app rj).1 = Except.ok () ∧
        (complete_selected_request parse app rj).2.1.pending_requests =
          app.pending_requests.eraseIdx app.selected_pending ∧
        (complete_selected_request parse app rj).2.2 =
          [(app.pending_requests.get ⟨app.selected_pending, h⟩,
            ProxyDecision.complete parsed)])) := by
  constructor
  · intro hp
    unfold complete_selected_request
    rw [dif_pos h, hp]
    exact ⟨rfl, rfl, rfl⟩
  · intro parsed hp
    constructor
    · intro hv
      unfold complete_selected_request
      rw [dif_pos h, hp]
      unfold jsonrpc_response_valid at hv
      cases hjr : optValueBeq (getKey parsed "jsonrpc") (some (Json.str "2.0")) <;>
        cases hid : getKey parsed "id" <;>
          cases hres : getKey parsed "result" <;>
            cases herx : getKey parsed "error" <;>
              simp_all [isErr]
    · intro hv
      unfold complete_selected_request
      rw [dif_pos h, hp]
      unfold jsonrpc_response_valid at hv
      cases hjr : optValueBeq (getKey parsed "jsonrpc") (some (Json.str "2.0")) <;>
        cases hid : getKey parsed "id" <;>
          cases hres : getKey parsed "result" <;>
            cases herx : getKey parsed "error" <;>
              simp_all

/-- Witness for C6: a valid concrete response removes the selected entry
and dispatches `Complete`. -/
theorem complete_selected_request_validates_witness :
    (complete_selected_request demo_parse demo_app "ok").1 = Except.ok () ∧
    (complete_selected_request demo_parse demo_app "ok").2.2 =
      [(demo_pending_b, ProxyDecision.complete demo_response_json)] ∧
    isErr (complete_selected_request demo_parse demo_app "bad").1 = true := by
  have h := complete_selected_request_validates demo_parse demo_app "ok" (by decide)
  have hvalid := (h.2 demo_response_json rfl).2 rfl
  have hbad := complete_selected_request_validates demo_parse demo_app "bad" (by decide)
  refine ⟨hvalid.1, ?_, (hbad.1 rfl).1⟩
  rw [hvalid.2.2]
  rfl

/-- The drain loop sends `Allow(None, None)` to each entry, in order. -/
theorem drain_pending_eq_map (ps : List PendingRequest) :
    drain_pending ps = ps.map (fun p => (p, ProxyDecision.allow none none)) := by
  induction ps with
  | nil => rfl
  | cons p rest ih => simp [drain_pending, ih]

/-- C8: `resume_all_requests` empties the pending queue, resets the
pending selection to 0, returns the app mode to `Normal`, and dispatches
`Allow(None, None)` on every previously pending entry's channel. -/
theorem resume_all_requests_resets (app : App) :
    (resume_all_requests app).1.pending_requests = [] ∧
    (resume_all_requests app).1.selected_pending = 0 ∧
    (resume_all_requests app).1.app_mode = AppMode.normal ∧
    (resume_all_requests app).2 =
      app.pending_requests.map (fun p => (p, ProxyDecision.allow none none)) :=
  ⟨rfl, rfl, rfl, drain_pending_eq_map app.pending_requests⟩

/-- C9: on every entry removal — allow, block, or a successfully
validated complete — the selection index is decremented by exactly one
when it is out of range for the shrunken queue and positive, and is left
unchanged otherwise. -/
theorem removal_selection_adjustment (parse : String → Option Json) (app : App)
    (h : app.selected_pending < app.pending_requests.length)
    (rj : String) (parsed : Json) (hp : parse rj = some parsed)
    (hv : jsonrpc_response_valid parsed = true) :
    (allow_selected_request parse app).1.selected_pending =
      (if app.selected_pending > 0 ∧
          app.selected_pending ≥ app.pending_requests.length - 1
        then app.selected_pending - 1 else app.selected_pending) ∧
    (block_selected_request app).1.selected_pending =
      (if app.selected_pending > 0 ∧
          app.selected_pending ≥ app.pending_requests.length - 1
        then app.selected_pending - 1 else app.selected_pending) ∧
    (complete_selected_request parse app rj).2.1.selected_pending =
      (if app.selected_pending > 0 ∧
          app.selected_pending ≥ app.pending_requests.length - 1
        then app.selected_pending - 1 else app.selected_pending) := by
  have hlen : (app.pending_requests.eraseIdx app.selected_pending).length =
      app.pending_requests.length - 1 := by
    rw [List.length_eraseIdx]
    simp [h]
  refine ⟨?_, ?_, ?_⟩
  · unfold allow_selected_request
    rw [dif_pos h]
    generalize app.pending_requests.get ⟨app.selected_pending, h⟩ = p
    cases hmr : p.modified_request with
    | none => simp [hmr, hlen]
    | some mj =>
      cases hpj : parse mj with
      | none => simp [hmr, hpj, hlen]
      | some parsed2 => simp [hmr, hpj, hlen]
  · unfold block_selected_request
    rw [dif_pos h]
    simp [hlen]
  · unfold complete_selected_request
    rw [dif_pos h, hp]
    unfold jsonrpc_response_valid at hv
    cases hjr : optValueBeq (getKey parsed "jsonrpc") (some (Json.str "2.0")) <;>
      cases hid : getKey parsed "id" <;>
        cases hres : getKey parsed "result" <;>
          cases herx : getKey parsed "error" <;>
            simp_all [hlen]

/-- Witness for C9: removing the last of two entries while it is selected
decrements the selection from 1 to 0 in all three removal paths. -/
theorem removal_selection_adjustment_witness :
    (allow_selected_request demo_parse demo_app).1.selected_pending = 0 ∧
    (block_selected_request demo_app).1.selected_pending = 0 ∧
    (complete_selected_request demo_parse demo_app "ok").2.1.selected_pending = 0 := by
  have h := removal_selection_adjustment demo_parse demo_app (by decide) "ok"
    demo_response_json rfl rfl
  exact ⟨h.1.trans rfl, h.2.1.trans rfl, h.2.2.trans rfl⟩

/-- C5: the handler intercepts a request exactly when the shared app mode
it observes at ingress is `Paused`; under `Normal` or `Intercepting` (or
with no proxy state at all) the request is forwarded. -/
theorem interception_iff_paused (headers : List (String × String)) (body : Json)
    (now : Nat) (observed : Option AppMode) :
    (handle_proxy_request_ingress headers body now observed).2 =
      (if observed = some AppMode.paused then HandlerAction.intercept
        else HandlerAction.forwardRequest) := by
  cases observed with
  | none => simp [handle_proxy_request_ingress, should_intercept]
  | some mode =>
    cases mode <;> simp [handle_proxy_request_ingress, should_intercept]

/-- C3 counterexample: on a concrete non-JSON upstream body the reply is
HTTP 200 with error code -32700, but its error object does carry a `data`
field — refuting the claim that the envelope carries none. -/
theorem invalid_json_reply_carries_data :
    (reply_error_data c3_outcome).isSome = true ∧
    c3_outcome.map (fun t => t.2.2) = some 200 ∧
    (c3_outcome.bind (fun t => (getKey t.2.1 "error").bind (fun e => getKey e "code"))) =
      some (Json.num (-32700)) :=
  ⟨rfl, rfl, rfl⟩

/-- C3 amended: whenever the non-JSON branch completes, the proxy replies
HTTP 200 with a JSON-RPC envelope echoing the request id, whose error has
code -32700 and carries a `data` object holding exactly `issue_type`,
`content_type` and `has_null_bytes`. -/
theorem invalid_json_reply_envelope (body : Json) (status_text : String)
    (response_text : List Nat) (response_headers : List (String × String))
    (parse_error_text target_url : String) (now : Nat)
    (logged : JsonRpcMessage) (reply : Json) (st : Nat)
    (hbr : invalid_json_branch body status_text response_text response_headers
        parse_error_text target_url now = some (logged, reply, st)) :
    st = 200 ∧
    getKey reply "jsonrpc" = some (.str "2.0") ∧
    getKey reply "id" = some ((getKey body "id").getD .null) ∧
    (getKey reply "error").bind (fun e => getKey e "code") = some (.num (-32700)) ∧
    (getKey reply "error").bind (fun e => getKey e "data") = some (Json.obj
      [ ("issue_type", .str (issue_type_of (trimScalars response_text).isEmpty
          (response_text.contains 0)
          ((lookupHeader response_headers "content-type").getD "unknown")))
      , ("content_type", .str ((lookupHeader response_headers "content-type").getD "unknown"))
      , ("has_null_bytes", .bool (response_text.contains 0)) ]) := by
  unfold invalid_json_branch at hbr
  cases hcp : content_preview response_text with
  | none =>
    rw [hcp] at hbr
    simp at hbr
  | some preview =>
    rw [hcp] at hbr
    simp only [Option.some.injEq, Prod.mk.injEq] at hbr
    obtain ⟨hlog, hrep, hst⟩ := hbr
    subst hrep
    subst hst
    exact ⟨rfl, rfl, rfl, rfl, rfl⟩

/-- Witness for the amended C3 theorem on the concrete scenario. -/
theorem invalid_json_reply_envelope_witness :
    getKey c3_reply "jsonrpc" = some (.str "2.0") ∧
    (getKey c3_reply "error").bind (fun e => getKey e "data") =
      some (Json.obj
        [ ("issue_type", .str "unknown_format")
        , ("content_type", .str "text/plain")
        , ("has_null_bytes", .bool false) ]) := by
  have h := invalid_json_reply_envelope c3_body "200 OK" c3_text c3_headers
    "expected value at line 1 column 1" "http://localhost:9999" 0 c3_logged c3_reply 200 rfl
  refine ⟨h.2.1, ?_⟩
  rw [h.2.2.2.2]
  rfl

set_option maxRecDepth 4000 in
/-- C4 (code bug): the preview construction of the non-JSON branch can
panic.  A 501-byte JSON-shaped body whose byte index 500 falls inside a
2-byte UTF-8 character makes `&response_text[..500]` slice off a char
boundary: the preview (and with it the whole branch) aborts instead of
terminating for every upstream byte sequence. -/
theorem content_preview_slice_panics :
    byteLength c4_text = 501 ∧
    slice_to c4_text 500 = none ∧
    content_preview c4_text = none ∧
    invalid_json_branch c3_body "200 OK" c4_text [] "err" "t" 0 = none :=
  ⟨rfl, rfl, rfl, rfl⟩

end JsonRpcDbg
